import Mathlib

/-!
# Verification of the Vybe backend header-ingestion / session-cache bridge

Shallow embedding of `src/backend/app/routers/ytm_router.py`,
`src/backend/app/services/code_service.py` and
`src/backend/app/services/utils_service.py`, together with proofs about the
credential store, the session cache, the music-proxy routes and the small
utility services.

The third-party `ytmusicapi.setup` function is not part of this repository;
every definition that calls it is parameterised by an arbitrary function
`su : String → String` standing for it, so all theorems quantify over every
possible behaviour of that library call.
-/

namespace Vybe

/-- `CredentialDocument`: the JSON payload `{url, time, headers}` persisted by
`save_headers` (the `HeaderIngest` pydantic model of `ytm_router.py`).
The `headers` mapping is modelled as an association list. -/
structure CredDoc where
  url : String
  time : String
  headers : List (String × String)
deriving DecidableEq, Repr

/-- First-match association-list lookup, modelling Python `dict.get` on the
header mapping (JSON objects have unique keys, so first match is the match). -/
def lookupHeader : List (String × String) → String → Option String
  | [], _ => none
  | p :: rest, k => if p.1 = k then some p.2 else lookupHeader rest k

/-- The fixed key list iterated by `_get_cached_auth_string`, in source order. -/
def headerKeyOrder : List String :=
  ["authorization", "x-goog-authuser", "x-goog-visitor-id", "x-origin",
   "x-youtube-client-name", "x-youtube-client-version", "user-agent",
   "accept-language", "cookie"]

/-- The `raw_lines` list built by `_get_cached_auth_string`: for each key of
`headerKeyOrder` in order, the line `"key: value"` when the value is present
and non-empty (Python truthiness of `val`), skipped otherwise. -/
def rawLines (hs : List (String × String)) : List String :=
  headerKeyOrder.filterMap (fun k =>
    match lookupHeader hs k with
    | some v => if v = "" then none else some (k ++ ": " ++ v)
    | none => none)

/-- `_get_cached_auth_string`'s computation on a given loaded document
(the body below the `lru_cache` decorator), parameterised by the third-party
`ytmusicapi.setup` call `su`.  `none` models Python `None`: returned when no
document was loaded or when no usable header line could be built. -/
def getCachedAuthString (su : String → String) (loaded : Option CredDoc) :
    Option String :=
  match loaded with
  | none => none
  | some doc =>
    let lines := rawLines doc.headers
    if lines = [] then none else some (su (String.intercalate "\n" lines))

/-- `_make_yt`: builds a client from the cached auth string; `if not auth:
return None` treats both `None` and the empty string as absent. -/
def make_yt (auth : Option String) : Option String :=
  match auth with
  | none => none
  | some a => if a = "" then none else some a

/-! ## The ingest / read / disconnect state machine

Process state relevant to the cache-coherence claims: the on-disk document
(`disk`) and the single `lru_cache(maxsize=1)` slot of
`_get_cached_auth_string` (`cache`; `none` means the slot is empty, `some v`
means the memoised return value is `v`). -/

/-- Process-wide state: on-disk credential document and the `lru_cache` slot. -/
structure YtmState where
  disk : Option CredDoc
  cache : Option (Option String)
deriving DecidableEq, Repr

/-- The operations of the bridge that touch the document or the cache. -/
inductive Op where
  /-- `POST /ytm/ingest` with a successful `save_headers`: overwrites the
  document and calls `_get_cached_auth_string.cache_clear()`. -/
  | ingest (doc : CredDoc)
  /-- `DELETE /ytm/connect`: removes the headers file.  The source does not
  touch the `lru_cache` slot here. -/
  | disconnect
  /-- A call to `_get_cached_auth_string()`: returns the memoised value if the
  slot is filled, otherwise computes from disk and fills the slot. -/
  | read
deriving DecidableEq, Repr

/-- Initial process state: no document on disk, cache slot empty. -/
def initState : YtmState := YtmState.mk none none

/-- One step of the bridge, translated from `ingest_headers`, `disconnect`
and the `lru_cache` semantics of `_get_cached_auth_string`. -/
def step (su : String → String) (s : YtmState) : Op → YtmState
  | Op.ingest doc => YtmState.mk (some doc) none
  | Op.disconnect => YtmState.mk none s.cache
  | Op.read =>
    match s.cache with
    | some _ => s
    | none => YtmState.mk s.disk (some (getCachedAuthString su s.disk))

/-- Run a sequence of operations from a state. -/
def runOps (su : String → String) (s : YtmState) : List Op → YtmState
  | [] => s
  | op :: rest => runOps su (step su s op) rest

/-- The value a call to `_get_cached_auth_string()` returns in state `s`:
the memoised value when the slot is filled, otherwise the fresh derivation. -/
def readResult (su : String → String) (s : YtmState) : Option String :=
  match s.cache with
  | some v => v
  | none => getCachedAuthString su s.disk

/-- Cache coherence: whenever the `lru_cache` slot is filled, the memoised
value is the derivation from the document currently on disk. -/
def cacheConsistent (su : String → String) (s : YtmState) : Prop :=
  ∀ v, s.cache = some v → v = getCachedAuthString su s.disk

/-! ## The HTTP routes

Route handlers are modelled as pure functions of their inputs.  The outcome of
the third-party client call executed in the thread pool is passed in as an
`Except String _` value (`Except.error` = the call raised).  Routes whose
handler bodies can let such an exception escape return
`Except String (HttpOut _)`; an `Except.error` result means the exception
propagated out of the handler. -/

/-- An HTTP outcome: a 200 body, or a raised `HTTPException`. -/
inductive HttpOut (α : Type) where
  | ok (v : α)
  | httpError (status : Nat) (detail : String)
deriving DecidableEq, Repr

instance {ε α : Type} [DecidableEq ε] [DecidableEq α] : DecidableEq (Except ε α)
  | Except.ok x, Except.ok y =>
    if h : x = y then Decidable.isTrue (by rw [h])
    else Decidable.isFalse (fun hc => h (by injection hc))
  | Except.ok _, Except.error _ => Decidable.isFalse (fun hc => Except.noConfusion hc)
  | Except.error _, Except.ok _ => Decidable.isFalse (fun hc => Except.noConfusion hc)
  | Except.error e, Except.error f =>
    if h : e = f then Decidable.isTrue (by rw [h])
    else Decidable.isFalse (fun hc => h (by injection hc))

/-- One entry of the `artists` list of an upstream record: a dict with an
optional `name` field, or a non-dict value (filtered by `isinstance(a, dict)`). -/
inductive ArtistEntry where
  | dict (name : Option String)
  | other
deriving DecidableEq, Repr

/-- The value of the `album` field of an upstream record: a dict with an
optional `name`, or a non-dict value. -/
inductive AlbumVal where
  | dict (name : Option String)
  | other
deriving DecidableEq, Repr

/-- One entry of the `thumbnails` list: a dict with an optional `url`. -/
structure Thumb where
  url : Option String
deriving DecidableEq, Repr

/-- The fields of an upstream history record that the routes read; each is
`none` when the key is absent. -/
structure HistDict where
  videoId : Option String
  title : Option String
  artists : Option (List ArtistEntry)
  album : Option AlbumVal
  thumbnails : Option (List Thumb)
  played : Option String
deriving DecidableEq, Repr

/-- An upstream history entry: a dict, or a non-dict value (skipped by the
`isinstance(item, dict)` guards). -/
inductive HistEntry where
  | dict (d : HistDict)
  | other
deriving DecidableEq, Repr

/-- A record of the list returned by `/ytm/history`: exactly the six fields
built by the normalisation loop of `get_history`. -/
structure NormItem where
  videoId : String
  title : String
  artists : List (Option String)
  album : Option String
  thumbnail : String
  played : String
deriving DecidableEq, Repr

/-- `[a.get("name") for a in (item.get("artists") or []) if isinstance(a, dict)]`. -/
def artistsField (as : Option (List ArtistEntry)) : List (Option String) :=
  (as.getD []).filterMap (fun e =>
    match e with
    | ArtistEntry.dict n => some n
    | ArtistEntry.other => none)

/-- `(item.get("album") or {}).get("name") if isinstance(item.get("album"), dict)
else ""`: a dict album (even a falsy empty one) yields its `name` (possibly
Python `None`); anything else yields `""`. -/
def albumField : Option AlbumVal → Option String
  | some (AlbumVal.dict n) => n
  | _ => some ""

/-- `(item.get("thumbnails") or [{}])[0].get("url", "")`: an absent or empty
(falsy) list is replaced by `[{}]`, whose head has no `url`. -/
def thumbField : Option (List Thumb) → String
  | some (t :: _) => t.url.getD ""
  | _ => ""

/-- One iteration of `get_history`'s normalisation loop: non-dict entries are
skipped (`continue`), dict entries are mapped to the fixed six-field record. -/
def normalizeEntry : HistEntry → Option NormItem
  | HistEntry.other => none
  | HistEntry.dict d =>
    some (NormItem.mk (d.videoId.getD "") (d.title.getD "Unknown")
      (artistsField d.artists) (albumField d.album) (thumbField d.thumbnails)
      (d.played.getD ""))

/-- The `_try_history` closure of `validate_connection` and `get_history`:
`try: return yt.get_history() except Exception: return []`. -/
def tryHistory (upstream : Except String (List HistEntry)) : List HistEntry :=
  match upstream with
  | Except.ok l => l
  | Except.error _ => []

/-- `GET /ytm/history`, translated from `get_history`: token check, 404 when no
client can be built, `_try_history` around the upstream call, 500 on an empty
list, otherwise truncation to `limit` and normalisation.  The outer `Except`
records whether an exception escapes the handler; every branch is `Except.ok`
because the upstream call is wrapped. -/
def get_history (x : Option String) (cfgToken : String) (limit : Nat)
    (auth : Option String) (upstream : Except String (List HistEntry)) :
    Except String (HttpOut (List NormItem)) :=
  if x ≠ some cfgToken then
    Except.ok (HttpOut.httpError 401 "Invalid token")
  else
    match make_yt auth with
    | none =>
      Except.ok (HttpOut.httpError 404
        "No headers found. Visit music.youtube.com with the extension loaded and play a track.")
    | some _ =>
      let history := tryHistory upstream
      if history = [] then
        Except.ok (HttpOut.httpError 500
          "Failed to get history from YouTube Music API")
      else
        Except.ok (HttpOut.ok ((history.take limit).filterMap normalizeEntry))

/-- A `number/title/artists/played` record of `validate_connection`'s sample. -/
structure ValidateItem where
  number : Nat
  title : String
  artists : List (Option String)
  played : String
deriving DecidableEq, Repr

/-- The `SimpleResponse` model `{ok, message, sample}`. -/
structure SimpleResp where
  ok : Bool
  message : Option String
  sample : Option (List ValidateItem)
deriving DecidableEq, Repr

/-- Python `x or default` on an optional string: `None` and `""` both fall
through to the default. -/
def pyOrStr (o : Option String) (d : String) : String :=
  match o with
  | none => d
  | some s => if s = "" then d else s

/-- `validate_connection`'s formatting loop: `enumerate(sample, 1)` numbers all
positions (non-dict entries are skipped after numbering). -/
def formatSample : Nat → List HistEntry → List ValidateItem
  | _, [] => []
  | i, HistEntry.other :: rest => formatSample (i + 1) rest
  | i, HistEntry.dict d :: rest =>
    ValidateItem.mk i (pyOrStr d.title "Unknown") (artistsField d.artists)
      (pyOrStr d.played "") :: formatSample (i + 1) rest

/-- `GET /ytm/validate`, translated from `validate_connection`.  All failure
shapes are 200 responses with `ok = false`; the upstream call is wrapped by
`_try_history`, so every branch is `Except.ok`. -/
def validate_connection (x : Option String) (cfgToken : String)
    (auth : Option String) (upstream : Except String (List HistEntry)) :
    Except String (HttpOut SimpleResp) :=
  if x ≠ some cfgToken then
    Except.ok (HttpOut.httpError 401 "Invalid token")
  else
    match make_yt auth with
    | none =>
      Except.ok (HttpOut.ok (SimpleResp.mk false
        (some "Not connected yet. Open music.youtube.com with the extension enabled and play a track.")
        none))
    | some _ =>
      let history := tryHistory upstream
      if history = [] then
        Except.ok (HttpOut.ok (SimpleResp.mk false
          (some "Connected, but no history returned yet. Try playing a track and retry.")
          none))
      else
        Except.ok (HttpOut.ok (SimpleResp.mk true (some "Connection validated")
          (some (formatSample 1 (history.take 5)))))

/-- `GET /ytm/library`, translated from `get_library`.  The upstream call
`yt.get_library_playlists()` is NOT wrapped in try/except: an upstream
exception propagates out of the handler (`Except.error`).  A falsy result
(`None` or `[]`) is coerced to `[]` by `playlists or []`. -/
def get_library {α : Type} (x : Option String) (cfgToken : String)
    (auth : Option String) (upstream : Except String (Option (List α))) :
    Except String (HttpOut (List α)) :=
  if x ≠ some cfgToken then
    Except.ok (HttpOut.httpError 401 "Invalid token")
  else
    match make_yt auth with
    | none =>
      Except.ok (HttpOut.httpError 404
        "No headers found. Visit music.youtube.com with the extension loaded and play a track.")
    | some _ =>
      match upstream with
      | Except.error e => Except.error e
      | Except.ok res => Except.ok (HttpOut.ok (res.getD []))

/-- `GET /ytm/search`, translated from `search_music`.  Like `get_library`,
the upstream call `yt.search(query, ...)` is not wrapped: exceptions
propagate; a falsy result is coerced to `[]`. -/
def search_music {α : Type} (x : Option String) (cfgToken : String)
    (auth : Option String) (_query : String)
    (upstream : Except String (Option (List α))) :
    Except String (HttpOut (List α)) :=
  if x ≠ some cfgToken then
    Except.ok (HttpOut.httpError 401 "Invalid token")
  else
    match make_yt auth with
    | none =>
      Except.ok (HttpOut.httpError 404
        "No headers found. Visit music.youtube.com with the extension loaded and play a track.")
    | some _ =>
      match upstream with
      | Except.error e => Except.error e
      | Except.ok res => Except.ok (HttpOut.ok (res.getD []))

/-! ## The credential store

`save_headers` writes `json.dump(payload.dict())` to `HEADERS_FILE`;
`load_headers` reads it back with `json.load`, returning `None` on any
failure.  The JSON text layer is abstracted to a JSON value tree: the file
either is missing, raises on read, holds unparseable text, or holds a parsed
JSON value. -/

/-- A JSON value, as far as the credential store needs to distinguish them:
a string, an object, or any other JSON value. -/
inductive Json where
  | str (s : String)
  | obj (fields : List (String × Json))
  | other
deriving Repr

/-- `json.dump` applied to `payload.dict()` of a `HeaderIngest`: the object
`{"url": ..., "time": ..., "headers": {...}}`. -/
def encodeDoc (d : CredDoc) : Json :=
  Json.obj [("url", Json.str d.url), ("time", Json.str d.time),
    ("headers", Json.obj (d.headers.map (fun p => (p.1, Json.str p.2))))]

/-- Read an all-string JSON object back into a header mapping. -/
def decodeHeaderPairs : List (String × Json) → Option (List (String × String))
  | [] => some []
  | (k, Json.str v) :: rest =>
    match decodeHeaderPairs rest with
    | some t => some ((k, v) :: t)
    | none => none
  | _ :: _ => none

/-- First-match lookup among a JSON object's fields. -/
def lookupField : List (String × Json) → String → Option Json
  | [], _ => none
  | p :: rest, k => if p.1 = k then some p.2 else lookupField rest k

/-- Interpret a loaded JSON value as a `CredentialDocument` (the shape the
routes read out of `load_headers`'s result). -/
def decodeDoc : Json → Option CredDoc
  | Json.obj fields =>
    match lookupField fields "url", lookupField fields "time",
        lookupField fields "headers" with
    | some (Json.str u), some (Json.str t), some (Json.obj hs) =>
      match decodeHeaderPairs hs with
      | some pairs => some (CredDoc.mk u t pairs)
      | none => none
    | _, _, _ => none
  | _ => none

/-- The state of `HEADERS_FILE` on durable storage. -/
inductive FsState where
  /-- `os.path.exists` is false. -/
  | missing
  /-- The file exists but opening or reading it raises. -/
  | unreadable
  /-- The file exists and holds text that `json.load` cannot parse. -/
  | malformed
  /-- The file exists and parses to the JSON value `j`. -/
  | stored (j : Json)
deriving Repr

/-- `os.path.exists(HEADERS_FILE)`. -/
def fileExists : FsState → Bool
  | FsState.missing => false
  | _ => true

/-- `open(HEADERS_FILE) / json.load`: the fallible part of `load_headers`'s
`try` block, raising (`Except.error`) on an unreadable file or unparseable
content. -/
def openAndParse : FsState → Except String Json
  | FsState.missing => Except.error "FileNotFoundError"
  | FsState.unreadable => Except.error "OSError"
  | FsState.malformed => Except.error "JSONDecodeError"
  | FsState.stored j => Except.ok j

/-- The body of `load_headers`'s `try` block, before the `except` clause:
check existence, then open and parse; falls through to `None` when the file
does not exist. -/
def loadHeadersBody (fs : FsState) : Except String (Option Json) :=
  if fileExists fs then
    match openAndParse fs with
    | Except.ok j => Except.ok (some j)
    | Except.error e => Except.error e
  else
    Except.ok none

/-- `load_headers`: the `try` body with `except Exception: pass` — every
raised exception is swallowed and the function returns `None`. -/
def load_headers (fs : FsState) : Option Json :=
  match loadHeadersBody fs with
  | Except.ok v => v
  | Except.error _ => none

/-- `save_headers(data)`: `makedirs` plus `json.dump` when the medium is
writable (returns the new file state and `True`), `False` when any step
raises, leaving the previous state in place. -/
def save_headers (writable : Bool) (doc : CredDoc) (fs : FsState) :
    FsState × Bool :=
  if writable then (FsState.stored (encodeDoc doc), true) else (fs, false)

/-! ## Utility services -/

/-- `BASE_ALPHABET` of `code_service.py`. -/
def BASE_ALPHABET : String := "23456789ABCDEFGHJKLMNPQRSTUVWXYZ"

/-- `SPECIALS` of `code_service.py`. -/
def SPECIALS : String := "!@#$%&*?"

/-- `DEFAULT_ALPHABET = BASE_ALPHABET + SPECIALS`. -/
def DEFAULT_ALPHABET : String := BASE_ALPHABET ++ SPECIALS

/-- `secrets.choice(alphabet)` with entropy `r`: a uniform index into the
alphabet; raises (`none`) exactly when the alphabet is empty. -/
def secretsChoice (alphabet : List Char) (r : Nat) : Option Char :=
  alphabet.get? (r % alphabet.length)

/-- The generator expression `"".join(secrets.choice(alphabet) for _ in
range(length))` over a list of entropy draws: one choice per draw, failing if
any single choice fails. -/
def joinChoices (alphabet : List Char) : List Nat → Option (List Char)
  | [] => some []
  | r :: rest =>
    match secretsChoice alphabet r, joinChoices alphabet rest with
    | some c, some cs => some (c :: cs)
    | _, _ => none

/-- `generate_code(length, alphabet)` from `code_service.py`, with the
randomness of `secrets` supplied as an entropy stream `rnd`. -/
def generate_code (length : Nat) (alphabet : String) (rnd : Nat → Nat) :
    Option String :=
  (joinChoices alphabet.data ((List.range length).map rnd)).map String.mk

/-- The character class `[a-z0-9]`: the complement of the substitution
pattern `[^a-z0-9]+` of `utils_service.py`. -/
def slugKeep (c : Char) : Bool :=
  ('a' ≤ c && c ≤ 'z') || ('0' ≤ c && c ≤ '9')

/-- `re.sub(r"[^a-z0-9]+", "-", s)`: each maximal run of characters outside
`[a-z0-9]` becomes a single `-`.  `inRun` records whether the previous
character belonged to such a run. -/
def subRuns (inRun : Bool) : List Char → List Char
  | [] => []
  | c :: rest =>
    if slugKeep c then c :: subRuns false rest
    else if inRun then subRuns true rest
    else '-' :: subRuns true rest

/-- The whitespace characters removed by Python `str.strip()`. -/
def pyIsSpace (c : Char) : Bool :=
  c = ' ' ∨ c = '\t' ∨ c = '\n' ∨ c = '\x0d' ∨ c = '\x0b' ∨ c = '\x0c'

/-- Python `str.strip`: drop characters satisfying `p` from both ends. -/
def pyStrip (p : Char → Bool) (l : List Char) : List Char :=
  ((l.dropWhile p).reverse.dropWhile p).reverse

/-- `slugify` from `utils_service.py`: strip, lowercase, collapse non-slug
runs to `-`, strip `-`, and fall back to `"n-a"` for a falsy (empty) result. -/
def slugify (text : String) : String :=
  let s1 := (pyStrip pyIsSpace text.data).map Char.toLower
  let s2 := pyStrip (fun c => c = '-') (subRuns false s1)
  if s2 = [] then "n-a" else String.mk s2

/-- The header-key subset as the spec (§3) lists it: authorization, visitor
id, origin, client name/version, user agent, language, cookie.  Stated from
the spec's words for comparison with `headerKeyOrder`, which the source
iterates; the source list also contains `x-goog-authuser`. -/
def specHeaderKeys : List String :=
  ["authorization", "x-goog-visitor-id", "x-origin", "x-youtube-client-name",
   "x-youtube-client-version", "user-agent", "accept-language", "cookie"]

/-! ## Theorems -/

/-- C10: `slugify` maps `"Hello, World!"` to `"hello-world"` and the empty
string to the fallback `"n-a"`. -/
theorem slugify_examples :
    slugify "Hello, World!" = "hello-world" ∧ slugify "" = "n-a" := by
  constructor <;> rfl

/-- Every draw of `joinChoices` over a non-empty alphabet succeeds, produces
one character per entropy value, and only characters of the alphabet. -/
theorem joinChoices_spec (alphabet : List Char) (h : alphabet ≠ [])
    (draws : List Nat) :
    ∃ cs, joinChoices alphabet draws = some cs ∧
      cs.length = draws.length ∧ ∀ c ∈ cs, c ∈ alphabet := by
  induction draws with
  | nil => exact ⟨[], rfl, rfl, by simp⟩
  | cons r rest ih =>
    obtain ⟨cs, hcs, hlen, hmem⟩ := ih
    have hlt : r % alphabet.length < alphabet.length :=
      Nat.mod_lt _ (List.length_pos.mpr h)
    have hchoice : secretsChoice alphabet r = some (alphabet.get ⟨r % alphabet.length, hlt⟩) := by
      unfold secretsChoice
      exact List.get?_eq_get hlt
    refine ⟨alphabet.get ⟨r % alphabet.length, hlt⟩ :: cs, ?_, by simp [hlen], ?_⟩
    · unfold joinChoices
      rw [hchoice, hcs]
    · intro c hc
      rcases List.mem_cons.mp hc with hc | hc
      · rw [hc]; exact alphabet.get_mem _ _
      · exact hmem c hc

/-- C9: for every length `n` and non-empty alphabet, `generate_code` returns
a string of length exactly `n` whose characters are all drawn from the
alphabet, whatever the entropy stream. -/
theorem generate_code_length_alphabet (n : Nat) (alphabet : String)
    (rnd : Nat → Nat) (h : alphabet.data ≠ []) :
    ∃ code : String, generate_code n alphabet rnd = some code ∧
      code.length = n ∧ ∀ c ∈ code.data, c ∈ alphabet.data := by
  obtain ⟨cs, hcs, hlen, hmem⟩ :=
    joinChoices_spec alphabet.data h ((List.range n).map rnd)
  refine ⟨String.mk cs, ?_, ?_, ?_⟩
  · unfold generate_code
    rw [hcs]
    rfl
  · show cs.length = n
    rw [hlen, List.length_map, List.length_range]
  · exact hmem

/-- C9 witness: `generate_code` at the default length 4 over the configured
`DEFAULT_ALPHABET` with a concrete entropy stream. -/
theorem generate_code_length_alphabet_witness :
    DEFAULT_ALPHABET.data ≠ [] ∧
    ∃ code : String, generate_code 4 DEFAULT_ALPHABET (fun i => i) = some code ∧
      code.length = 4 ∧ ∀ c ∈ code.data, c ∈ DEFAULT_ALPHABET.data :=
  ⟨by decide, generate_code_length_alphabet 4 DEFAULT_ALPHABET (fun i => i) (by decide)⟩

/-- C7: `load_headers` is total and fails soft: it returns `none` exactly on
a missing, unreadable or malformed file — every exception of the body is
swallowed — and returns the parsed value when the file exists and parses. -/
theorem load_headers_fails_soft (fs : FsState) :
    (load_headers fs = none ∧
      (fs = FsState.missing ∨ fs = FsState.unreadable ∨ fs = FsState.malformed)) ∨
    (∃ j, fs = FsState.stored j ∧ load_headers fs = some j) := by
  cases fs with
  | missing => exact Or.inl ⟨rfl, Or.inl rfl⟩
  | unreadable => exact Or.inl ⟨rfl, Or.inr (Or.inl rfl)⟩
  | malformed => exact Or.inl ⟨rfl, Or.inr (Or.inr rfl)⟩
  | stored j => exact Or.inr ⟨j, rfl, rfl⟩

/-- Decoding inverts the encoding of the all-string headers object. -/
theorem decodeHeaderPairs_encode (hs : List (String × String)) :
    decodeHeaderPairs (hs.map (fun p => (p.1, Json.str p.2))) = some hs := by
  induction hs with
  | nil => rfl
  | cons p rest ih =>
    obtain ⟨a, b⟩ := p
    simp [decodeHeaderPairs, ih]

/-- Reading the encoded document back yields the original document. -/
theorem decodeDoc_encodeDoc (d : CredDoc) : decodeDoc (encodeDoc d) = some d := by
  obtain ⟨u, t, hs⟩ := d
  simp [decodeDoc, encodeDoc, lookupField, decodeHeaderPairs_encode]

/-- C6: round-trip of the credential store — when `save_headers` reports
success, an immediately following `load_headers` returns the saved JSON
document, and that document reads back as a `CredentialDocument` equal to the
one saved. -/
theorem save_load_roundtrip (writable : Bool) (doc : CredDoc) (fs : FsState)
    (h : (save_headers writable doc fs).2 = true) :
    load_headers (save_headers writable doc fs).1 = some (encodeDoc doc) ∧
    decodeDoc (encodeDoc doc) = some doc := by
  refine ⟨?_, decodeDoc_encodeDoc doc⟩
  cases writable with
  | false => simp [save_headers] at h
  | true => rfl

/-- C6 witness: the round-trip at a concrete document on a writable medium. -/
theorem save_load_roundtrip_witness :
    (save_headers true (CredDoc.mk "https://music.youtube.com" "now"
      [("authorization", "x"), ("cookie", "c")]) FsState.missing).2 = true ∧
    (load_headers (save_headers true (CredDoc.mk "https://music.youtube.com" "now"
        [("authorization", "x"), ("cookie", "c")]) FsState.missing).1 =
      some (encodeDoc (CredDoc.mk "https://music.youtube.com" "now"
        [("authorization", "x"), ("cookie", "c")])) ∧
      decodeDoc (encodeDoc (CredDoc.mk "https://music.youtube.com" "now"
        [("authorization", "x"), ("cookie", "c")])) =
      some (CredDoc.mk "https://music.youtube.com" "now"
        [("authorization", "x"), ("cookie", "c")])) :=
  ⟨rfl, save_load_roundtrip true (CredDoc.mk "https://music.youtube.com" "now"
    [("authorization", "x"), ("cookie", "c")]) FsState.missing rfl⟩

/-- A usable header key yields its line among `raw_lines`. -/
theorem rawLines_mem_of_usable (hs : List (String × String)) (k v : String)
    (hk : k ∈ headerKeyOrder) (hv : lookupHeader hs k = some v) (hne : v ≠ "") :
    (k ++ ": " ++ v) ∈ rawLines hs := by
  unfold rawLines
  apply List.mem_filterMap.mpr
  exact ⟨k, hk, by rw [hv]; simp [hne]⟩

/-- When every key of the fixed list is absent or empty, `raw_lines` is empty. -/
theorem rawLines_nil_of_unusable (hs : List (String × String))
    (h : ∀ k ∈ headerKeyOrder,
      lookupHeader hs k = none ∨ lookupHeader hs k = some "") :
    rawLines hs = [] := by
  unfold rawLines
  apply List.filterMap_eq_nil_iff.mpr
  intro k hk
  rcases h k hk with hv | hv <;> simp [hv]

/-- C5: session derivation.  (a) A document with at least one usable (present
and non-empty) key of the fixed list derives a non-absent handle, and a read
right after an invalidation (empty cache slot) performs exactly that fresh
derivation; (b) reading is idempotent — a second read returns the same handle
as the first (same document ⇒ same handle); (c) a document with no usable key
derives no handle, and `/ytm/history` on that absent handle reports the
404 "not connected" outcome instead of failing. -/
theorem session_derivation (su : String → String) (doc : CredDoc) :
    ((∃ k ∈ headerKeyOrder, ∃ v, lookupHeader doc.headers k = some v ∧ v ≠ "") →
      ∃ s, getCachedAuthString su (some doc) = some s ∧
        readResult su (YtmState.mk (some doc) none) = some s) ∧
    (∀ s : YtmState, readResult su (step su s Op.read) = readResult su s) ∧
    ((∀ k ∈ headerKeyOrder,
        lookupHeader doc.headers k = none ∨ lookupHeader doc.headers k = some "") →
      getCachedAuthString su (some doc) = none ∧
      ∀ (t : String) (limit : Nat) (upstream : Except String (List HistEntry)),
        get_history (some t) t limit (getCachedAuthString su (some doc)) upstream =
          Except.ok (HttpOut.httpError 404
            "No headers found. Visit music.youtube.com with the extension loaded and play a track.")) := by
  refine ⟨?_, ?_, ?_⟩
  · rintro ⟨k, hk, v, hv, hne⟩
    have hmem := rawLines_mem_of_usable doc.headers k v hk hv hne
    have hnil : rawLines doc.headers ≠ [] := List.ne_nil_of_mem hmem
    refine ⟨su (String.intercalate "\n" (rawLines doc.headers)), ?_, ?_⟩
    · simp [getCachedAuthString, hnil]
    · show getCachedAuthString su (some doc) = _
      simp [getCachedAuthString, hnil]
  · intro s
    cases hc : s.cache with
    | some w =>
      have hstep : step su s Op.read = s := by simp [step, hc]
      rw [hstep]
    | none =>
      have hstep : step su s Op.read =
          YtmState.mk s.disk (some (getCachedAuthString su s.disk)) := by
        simp [step, hc]
      rw [hstep]
      simp [readResult, hc]
  · intro h
    have hnil : rawLines doc.headers = [] := rawLines_nil_of_unusable doc.headers h
    have hauth : getCachedAuthString su (some doc) = none := by
      simp [getCachedAuthString, hnil]
    refine ⟨hauth, ?_⟩
    intro t limit upstream
    rw [hauth]
    simp [get_history, make_yt]

/-- C5 witness: a document whose only usable key is `authorization` derives a
handle; a document whose only listed key is an empty `cookie` derives none and
gets the 404 outcome from `/ytm/history`. -/
theorem session_derivation_witness :
    (∃ s, getCachedAuthString id (some (CredDoc.mk "u" "t" [("authorization", "x")])) = some s ∧
      readResult id (YtmState.mk (some (CredDoc.mk "u" "t" [("authorization", "x")])) none) = some s) ∧
    (getCachedAuthString id (some (CredDoc.mk "u" "t" [("cookie", ""), ("foo", "bar")])) = none ∧
      ∀ (t : String) (limit : Nat) (upstream : Except String (List HistEntry)),
        get_history (some t) t limit
            (getCachedAuthString id (some (CredDoc.mk "u" "t" [("cookie", ""), ("foo", "bar")]))) upstream =
          Except.ok (HttpOut.httpError 404
            "No headers found. Visit music.youtube.com with the extension loaded and play a track.")) :=
  ⟨(session_derivation id (CredDoc.mk "u" "t" [("authorization", "x")])).1
      ⟨"authorization", by decide, "x", by decide, by decide⟩,
    (session_derivation id (CredDoc.mk "u" "t" [("cookie", ""), ("foo", "bar")])).2.2
      (by decide)⟩

/-- Pointwise-equal partial maps give equal `filterMap`s. -/
theorem filterMap_congr_mem {α β : Type} (f g : α → Option β) (l : List α)
    (h : ∀ a ∈ l, f a = g a) : l.filterMap f = l.filterMap g := by
  induction l with
  | nil => rfl
  | cons a rest ih =>
    have ha := h a (List.mem_cons_self a rest)
    have hrest := ih (fun b hb => h b (List.mem_cons_of_mem a hb))
    simp [List.filterMap_cons, ha, hrest]

/-- C2 counterexample: the spec's listed subset omits `x-goog-authuser`,
which the source reads.  Two documents agreeing on every spec-listed key but
differing on `x-goog-authuser` derive different handles (already at the level
of the concatenated raw header lines). -/
theorem header_subset_counterexample :
    (∀ k ∈ specHeaderKeys,
      lookupHeader [("authorization", "x")] k =
        lookupHeader [("authorization", "x"), ("x-goog-authuser", "0")] k) ∧
    rawLines [("authorization", "x")] ≠
      rawLines [("authorization", "x"), ("x-goog-authuser", "0")] ∧
    getCachedAuthString id (some (CredDoc.mk "u" "t" [("authorization", "x")])) ≠
      getCachedAuthString id
        (some (CredDoc.mk "u" "t" [("authorization", "x"), ("x-goog-authuser", "0")])) := by
  refine ⟨by decide, by decide, by decide⟩

/-- C2 amended: the handle is a deterministic function of the nine keys the
source iterates (`headerKeyOrder`, i.e. the spec's subset plus
`x-goog-authuser`), concatenated in that fixed order with absent or empty
keys skipped: two documents agreeing on those nine keys derive the same
handle, for every behaviour of the third-party `setup` call. -/
theorem header_agreement (su : String → String) (d1 d2 : CredDoc)
    (h : ∀ k ∈ headerKeyOrder,
      lookupHeader d1.headers k = lookupHeader d2.headers k) :
    getCachedAuthString su (some d1) = getCachedAuthString su (some d2) := by
  have hra : rawLines d1.headers = rawLines d2.headers := by
    unfold rawLines
    exact filterMap_congr_mem _ _ headerKeyOrder (fun k hk => by rw [h k hk])
  simp [getCachedAuthString, hra]

/-- C2 witness: a document with an extra key outside the nine derives the
same handle as one without it. -/
theorem header_agreement_witness :
    (∀ k ∈ headerKeyOrder,
      lookupHeader [("authorization", "x"), ("extra", "1")] k =
        lookupHeader [("authorization", "x")] k) ∧
    getCachedAuthString id
        (some (CredDoc.mk "a" "b" [("authorization", "x"), ("extra", "1")])) =
      getCachedAuthString id (some (CredDoc.mk "c" "d" [("authorization", "x")])) :=
  ⟨by decide, header_agreement id (CredDoc.mk "a" "b" [("authorization", "x"), ("extra", "1")])
    (CredDoc.mk "c" "d" [("authorization", "x")]) (by decide)⟩

/-- A single non-disconnect step preserves cache coherence: ingest clears the
slot, a read fills it from the current disk document. -/
theorem step_preserves_consistent (su : String → String) (s : YtmState)
    (op : Op) (hs : cacheConsistent su s) (hop : op ≠ Op.disconnect) :
    cacheConsistent su (step su s op) := by
  cases op with
  | ingest doc => intro v hv; simp [step] at hv
  | disconnect => exact absurd rfl hop
  | read =>
    cases hc : s.cache with
    | some w =>
      have hstep : step su s Op.read = s := by simp [step, hc]
      rw [hstep]; exact hs
    | none =>
      have hstep : step su s Op.read =
          YtmState.mk s.disk (some (getCachedAuthString su s.disk)) := by
        simp [step, hc]
      rw [hstep]
      intro v hv
      simp at hv
      simp [hv]

/-- Coherence is preserved along any run without a disconnect. -/
theorem runOps_preserves_consistent (su : String → String) (ops : List Op) :
    ∀ s : YtmState, cacheConsistent su s → Op.disconnect ∉ ops →
      cacheConsistent su (runOps su s ops) := by
  induction ops with
  | nil => intro s hs _; exact hs
  | cons op rest ih =>
    intro s hs hno
    have hop : op ≠ Op.disconnect := by
      intro he
      exact hno (he ▸ List.mem_cons_self op rest)
    have hrest : Op.disconnect ∉ rest := fun hm => hno (List.mem_cons_of_mem op hm)
    exact ih (step su s op) (step_preserves_consistent su s op hs hop) hrest

/-- C1 counterexample: `disconnect` removes the on-disk document but does not
clear the `lru_cache` slot.  After ingest, a read (which caches the handle)
and a disconnect, `_get_cached_auth_string` still returns the handle derived
from the deleted document, although nothing is on disk. -/
theorem cache_coherence_counterexample :
    readResult id (runOps id initState
        [Op.ingest (CredDoc.mk "u" "t" [("authorization", "x")]), Op.read,
          Op.disconnect]) = some "authorization: x" ∧
    (runOps id initState
        [Op.ingest (CredDoc.mk "u" "t" [("authorization", "x")]), Op.read,
          Op.disconnect]).disk = none ∧
    getCachedAuthString id none = none := by
  refine ⟨by decide, by decide, rfl⟩

/-- C1 amended: along every sequence of ingest and read operations that
contains no disconnect, the cache stays coherent — whenever the `lru_cache`
slot is filled, its value is the derivation from the document currently on
disk, because every successful ingest clears the slot.  (Disconnect breaks
this: it deletes the document without clearing the slot, as the
counterexample shows.) -/
theorem ingest_invalidates_cache (su : String → String) (ops : List Op)
    (h : Op.disconnect ∉ ops) :
    cacheConsistent su (runOps su initState ops) :=
  runOps_preserves_consistent su ops initState
    (fun v hv => by simp [initState] at hv) h

/-- C1 witness: coherence after a concrete ingest-then-read run. -/
theorem ingest_invalidates_cache_witness :
    Op.disconnect ∉
      [Op.ingest (CredDoc.mk "u" "t" [("authorization", "x")]), Op.read] ∧
    cacheConsistent id (runOps id initState
      [Op.ingest (CredDoc.mk "u" "t" [("authorization", "x")]), Op.read]) :=
  ⟨by decide, ingest_invalidates_cache id
    [Op.ingest (CredDoc.mk "u" "t" [("authorization", "x")]), Op.read] (by decide)⟩

/-- C3 counterexample: with a valid token and a session present, an upstream
call that SUCCEEDS with zero rows is reported as the 500-class failure, not
as a 200 success with an empty sequence. -/
theorem history_zero_rows_counterexample :
    get_history (some "t") "t" 50 (some "auth")
        (Except.ok ([] : List HistEntry)) =
      Except.ok (HttpOut.httpError 500
        "Failed to get history from YouTube Music API") ∧
    get_history (some "t") "t" 50 (some "auth")
        (Except.ok ([] : List HistEntry)) ≠
      Except.ok (HttpOut.ok ([] : List NormItem)) := by
  refine ⟨by decide, by decide⟩

/-- C3 amended: for `/ytm/history` with a valid token, no derivable session
gives the 404-class outcome; a session with an upstream exception OR an
upstream success with zero rows both give the same 500-class outcome (the
two are not distinguishable); only a non-empty upstream success gives the
200 outcome, carrying the normalised rows. -/
theorem history_outcomes (t : String) (limit : Nat) (auth : Option String)
    (upstream : Except String (List HistEntry)) :
    (make_yt auth = none →
      get_history (some t) t limit auth upstream =
        Except.ok (HttpOut.httpError 404
          "No headers found. Visit music.youtube.com with the extension loaded and play a track.")) ∧
    (make_yt auth ≠ none → tryHistory upstream = [] →
      get_history (some t) t limit auth upstream =
        Except.ok (HttpOut.httpError 500
          "Failed to get history from YouTube Music API")) ∧
    (make_yt auth ≠ none → tryHistory upstream ≠ [] →
      get_history (some t) t limit auth upstream =
        Except.ok (HttpOut.ok
          (((tryHistory upstream).take limit).filterMap normalizeEntry))) := by
  refine ⟨?_, ?_, ?_⟩
  · intro hma
    simp [get_history, hma]
  · intro hma hemp
    obtain ⟨a, ha⟩ := Option.ne_none_iff_exists.mp hma
    simp [get_history, ha.symm, hemp]
  · intro hma hne
    obtain ⟨a, ha⟩ := Option.ne_none_iff_exists.mp hma
    simp [get_history, ha.symm, hne]

/-- C3 witness: the three hypotheses discharged at a concrete non-empty
upstream success, with the 200 outcome evaluated. -/
theorem history_outcomes_witness :
    make_yt (some "a") ≠ none ∧
    tryHistory (Except.ok [HistEntry.other]) ≠ [] ∧
    get_history (some "t") "t" 2 (some "a") (Except.ok [HistEntry.other]) =
      Except.ok (HttpOut.ok
        (((tryHistory (Except.ok [HistEntry.other])).take 2).filterMap normalizeEntry)) :=
  ⟨by decide, by decide,
    (history_outcomes "t" 2 (some "a") (Except.ok [HistEntry.other])).2.2
      (by decide) (by decide)⟩

/-- C4 counterexample: `get_library` and `search_music` do not wrap the
third-party call — with a valid token and a session present, an upstream
exception propagates out of both handlers unchanged. -/
theorem library_search_propagate_counterexample :
    (get_library (some "t") "t" (some "a")
        (Except.error "boom" : Except String (Option (List Nat))) :
      Except String (HttpOut (List Nat))) = Except.error "boom" ∧
    (search_music (some "t") "t" (some "a") "q"
        (Except.error "boom" : Except String (Option (List Nat))) :
      Except String (HttpOut (List Nat))) = Except.error "boom" := by
  refine ⟨by decide, by decide⟩

/-- C4 amended: only `validate_connection` and `get_history` wrap the
third-party call — they return a proper HTTP outcome for every upstream
result, exceptions included; `get_library` and `search_music` let an upstream
exception escape the handler unchanged, coercing only falsy results to the
empty list. -/
theorem exception_wrapping (x : Option String) (t q e : String) (limit : Nat)
    (auth : Option String) (upstream : Except String (List HistEntry))
    (hy : make_yt auth ≠ none) :
    (∃ v, get_history x t limit auth upstream = Except.ok v) ∧
    (∃ v, validate_connection x t auth upstream = Except.ok v) ∧
    get_library (some t) t auth
        (Except.error e : Except String (Option (List Nat))) = Except.error e ∧
    search_music (some t) t auth q
        (Except.error e : Except String (Option (List Nat))) = Except.error e := by
  obtain ⟨a, ha⟩ := Option.ne_none_iff_exists.mp hy
  refine ⟨?_, ?_, ?_, ?_⟩
  · unfold get_history
    split
    · exact ⟨_, rfl⟩
    · cases make_yt auth with
      | none => exact ⟨_, rfl⟩
      | some b =>
        dsimp only
        split
        · exact ⟨_, rfl⟩
        · exact ⟨_, rfl⟩
  · unfold validate_connection
    split
    · exact ⟨_, rfl⟩
    · cases make_yt auth with
      | none => exact ⟨_, rfl⟩
      | some b =>
        dsimp only
        split
        · exact ⟨_, rfl⟩
        · exact ⟨_, rfl⟩
  · simp [get_library, ha.symm]
  · simp [search_music, ha.symm]

/-- C4 witness: the wrapping behaviour at a concrete failing upstream call. -/
theorem exception_wrapping_witness :
    make_yt (some "a") ≠ none ∧
    ((∃ v, get_history (some "t") "t" 50 (some "a")
        (Except.error "boom") = Except.ok v) ∧
      (∃ v, validate_connection (some "t") "t" (some "a")
        (Except.error "boom") = Except.ok v) ∧
      get_library (some "t") "t" (some "a")
          (Except.error "boom" : Except String (Option (List Nat))) =
        Except.error "boom" ∧
      search_music (some "t") "t" (some "a") "q"
          (Except.error "boom" : Except String (Option (List Nat))) =
        Except.error "boom") :=
  ⟨by decide, exception_wrapping (some "t") "t" "q" "boom" 50 (some "a")
    (Except.error "boom") (by decide)⟩

/-- C8: for an authorized `/ytm/history` request with `limit` in the accepted
range and a successful upstream list, a 200 response is exactly the
normalisation of the length-`limit` prefix of the upstream list (so it has at
most `limit` records, in upstream order, each carrying exactly the six
normalised fields of `NormItem`), and non-dict upstream entries are dropped
by the normalisation. -/
theorem history_limit_prefix (t : String) (limit : Nat) (auth : Option String)
    (l : List HistEntry) (out : List NormItem)
    (_hlo : 1 ≤ limit) (_hhi : limit ≤ 200)
    (hout : get_history (some t) t limit auth (Except.ok l) =
      Except.ok (HttpOut.ok out)) :
    out = (l.take limit).filterMap normalizeEntry ∧
    out.length ≤ limit ∧
    normalizeEntry HistEntry.other = none := by
  have heq : out = (l.take limit).filterMap normalizeEntry := by
    rcases hma : make_yt auth with _ | a
    · simp [get_history, hma] at hout
    · by_cases hemp : l = []
      · subst hemp
        simp [get_history, hma, tryHistory] at hout
      · simp [get_history, hma, tryHistory, hemp] at hout
        exact hout.symm
  refine ⟨heq, ?_, rfl⟩
  rw [heq]
  calc ((l.take limit).filterMap normalizeEntry).length
      ≤ (l.take limit).length := List.length_filterMap_le _ _
    _ ≤ limit := by rw [List.length_take]; exact Nat.min_le_left _ _

/-- C8 witness: a concrete authorized request whose upstream list holds one
dict record and one non-dict entry. -/
theorem history_limit_prefix_witness :
    (1 ≤ 50 ∧ 50 ≤ 200) ∧
    get_history (some "t") "t" 50 (some "a")
        (Except.ok [HistEntry.dict (HistDict.mk none none none none none none),
          HistEntry.other]) =
      Except.ok (HttpOut.ok [NormItem.mk "" "Unknown" [] (some "") "" ""]) ∧
    ([NormItem.mk "" "Unknown" [] (some "") "" ""] =
        (([HistEntry.dict (HistDict.mk none none none none none none),
          HistEntry.other].take 50).filterMap normalizeEntry) ∧
      ([NormItem.mk "" "Unknown" [] (some "") "" ""] : List NormItem).length ≤ 50 ∧
      normalizeEntry HistEntry.other = none) :=
  ⟨⟨by decide, by decide⟩, by decide,
    history_limit_prefix "t" 50 (some "a")
      [HistEntry.dict (HistDict.mk none none none none none none), HistEntry.other]
      [NormItem.mk "" "Unknown" [] (some "") "" ""]
      (by decide) (by decide) (by decide)⟩

end Vybe
